import Mathlib

/-!
Shallow embedding of the order lifecycle and authorization core of the
steakz backend (src/src/controllers/orderController.ts,
src/src/controllers/paymentController.ts, src/src/routes/orderRoutes.ts,
dist/routes/paymentRoutes.js, dist/middleware/authMiddleware.js, and the
Prisma schema).  Monetary values are modelled as exact rationals; the
relational store is modelled as in-memory lists of rows.  JavaScript
truthiness checks on optional numeric and string fields are modelled
explicitly (0 and the empty string are falsy).
-/

namespace Steakz

/-- Role enum from the Prisma schema. -/
inductive Role where
  | CUSTOMER
  | CHEF
  | CASHIER
  | BRANCH_MANAGER
  | GENERAL_MANAGER
  | ADMIN
deriving DecidableEq

/-- OrderStatus enum from the Prisma schema. -/
inductive OrderStatus where
  | PENDING
  | PREPARING
  | READY
  | DELIVERED
  | CANCELLED
deriving DecidableEq

/-- PaymentStatus enum from the Prisma schema. -/
inductive PaymentStatus where
  | PENDING
  | COMPLETED
  | FAILED
  | REFUNDED
deriving DecidableEq

/-- PaymentMethod enum from the Prisma schema. -/
inductive PaymentMethod where
  | CASH
  | CREDIT_CARD
  | DEBIT_CARD
  | MOBILE_PAYMENT
deriving DecidableEq

/-- The verified identity context (req.user), as set by authenticateToken in
authMiddleware: user id, role, and an optional branch id (the middleware
spreads branchId only when truthy, but getOrders re-checks truthiness, so we
keep the raw optional value here and model truthiness at each use site). -/
structure User where
  id : Nat
  role : Role
  branchId : Option Nat
deriving DecidableEq

/-- Branch row (id, address are what the core reads). -/
structure Branch where
  id : Nat
  name : String
  address : String
deriving DecidableEq

/-- MenuItem row: the fields read by createOrder. -/
structure MenuItem where
  id : Nat
  name : String
  price : Rat
  isAvailable : Bool
  branchId : Nat
deriving DecidableEq

/-- OrderItem row as created by createOrder (unitPrice is the snapshot of the
menu price, subtotal = unitPrice * quantity as computed by the controller). -/
structure OrderItem where
  menuItemId : Nat
  quantity : Nat
  unitPrice : Rat
  subtotal : Rat
deriving DecidableEq

/-- Order row. The one-to-one payment relation is kept in a separate
payments table (as in the schema) and joined via DB.paymentFor. -/
structure Order where
  id : Nat
  status : OrderStatus
  totalAmount : Rat
  customerId : Nat
  branchId : Nat
  deliveryAddress : Option String
  items : List OrderItem
deriving DecidableEq

/-- Payment row; orderId is unique in the schema. -/
structure Payment where
  id : Nat
  orderId : Nat
  amount : Rat
  method : PaymentMethod
  status : PaymentStatus
deriving DecidableEq

/-- The persistent store, modelled as lists of rows. -/
structure DB where
  orders : List Order
  payments : List Payment
  menuItems : List MenuItem
  branches : List Branch
deriving DecidableEq

/-- prisma.order.findUnique on id. -/
def DB.findOrder (db : DB) (orderId : Nat) : Option Order :=
  db.orders.find? (fun o => o.id == orderId)

/-- The payment joined to an order (include payment / findUnique on the
unique orderId column). -/
def DB.paymentFor (db : DB) (orderId : Nat) : Option Payment :=
  db.payments.find? (fun p => p.orderId == orderId)

/-- prisma.menuItem.findUnique on id. -/
def DB.findMenuItem (db : DB) (menuItemId : Nat) : Option MenuItem :=
  db.menuItems.find? (fun m => m.id == menuItemId)

/-- prisma.order.update setting the status of the order with the given id. -/
def DB.setOrderStatus (db : DB) (orderId : Nat) (st : OrderStatus) : DB :=
  { db with orders :=
      db.orders.map (fun o => if o.id == orderId then { o with status := st } else o) }

/-- prisma.payment.update setting the status of the payment with the given id. -/
def DB.setPaymentStatus (db : DB) (paymentId : Nat) (st : PaymentStatus) : DB :=
  { db with payments :=
      db.payments.map (fun p => if p.id == paymentId then { p with status := st } else p) }

/-- JavaScript truthiness of an optional number: undefined/null and 0 are falsy. -/
def truthyNat : Option Nat → Bool
  | Option.none => false
  | Option.some n => n != 0

/-- JavaScript truthiness of an optional string: undefined/null and the empty
string are falsy. -/
def truthyStr : Option String → Bool
  | Option.none => false
  | Option.some s => s != ""

/-- JavaScript truthiness of an optional rational (the amount field of a
payment request): undefined/null and 0 are falsy. -/
def truthyRat : Option Rat → Bool
  | Option.none => false
  | Option.some a => a != 0

/-- Error outcomes of the embedded handlers, one constructor per distinct
rejection site in the source (the HTTP status plus message pair). -/
inductive ApiError where
  /-- authorizeRole middleware 403 (role not in the route list). -/
  | accessDeniedRole
  /-- 403 Chefs can only mark orders as preparing or ready. -/
  | chefStatusForbidden
  /-- 403 Cashiers can only mark orders as delivered or cancelled. -/
  | cashierStatusForbidden
  /-- 404 Order not found. -/
  | orderNotFound
  /-- 400 Cannot transition from X to Y. -/
  | invalidTransition (fromStatus : OrderStatus) (toStatus : OrderStatus)
  /-- 403 Insufficient permissions to create orders. -/
  | insufficientPermissions
  /-- 400 Order must contain at least one item. -/
  | emptyOrder
  /-- 400 No branches available. -/
  | noBranches
  /-- 400 No branchId or delivery address provided. -/
  | missingBranch
  /-- 404 Menu item X not found. -/
  | itemNotFound (menuItemId : Nat)
  /-- 400 Menu item NAME is not available. -/
  | itemUnavailable (name : String)
  /-- 400 Amount and payment method are required. -/
  | paymentFieldsRequired
  /-- 403 Unauthorized to pay for / process payment for this order. -/
  | unauthorizedPayment
  /-- 400 Payment already processed for this order. -/
  | duplicatePayment
  /-- 400 Payment amount does not match order total. -/
  | amountMismatch
  /-- 403 Unauthorized to delete orders. -/
  | unauthorizedDelete
  /-- 400 Cannot delete delivered orders. -/
  | cannotDeleteDelivered
  /-- 500 generic store failure (the catch branch), used by the model of a
  store write that fails partway through a handler. -/
  | storeFailure
deriving DecidableEq

/-- Whether an error is the invalid-transition (Cannot transition from X to Y)
error, regardless of the two states it names. -/
def ApiError.isInvalidTransitionErr : ApiError → Bool
  | ApiError.invalidTransition _ _ => true
  | _ => false

/-- Whether an error is the item-not-found (Menu item X not found) error,
regardless of the item id it names. -/
def ApiError.isItemNotFoundErr : ApiError → Bool
  | ApiError.itemNotFound _ => true
  | _ => false

/-- The validTransitions table of updateOrderStatus (orderController.ts). -/
def validTransitions : OrderStatus → List OrderStatus
  | OrderStatus.PENDING => [OrderStatus.PREPARING, OrderStatus.CANCELLED, OrderStatus.DELIVERED]
  | OrderStatus.PREPARING => [OrderStatus.READY, OrderStatus.CANCELLED]
  | OrderStatus.READY => [OrderStatus.DELIVERED, OrderStatus.CANCELLED]
  | OrderStatus.DELIVERED => []
  | OrderStatus.CANCELLED => []

/-- updateOrderStatus controller (orderController.ts lines 262-335): role
checks for CHEF and CASHIER, order lookup with joined payment, transition
table check, refund side effect on cancellation, then the status update.
Returns the handler outcome together with the resulting store state. -/
def updateOrderStatus (user : User) (orderId : Nat) (status : OrderStatus)
    (db : DB) : Except ApiError Order × DB :=
  if user.role = Role.CHEF ∧ status ∉ [OrderStatus.PREPARING, OrderStatus.READY] then
    (Except.error ApiError.chefStatusForbidden, db)
  else if user.role = Role.CASHIER ∧ status ∉ [OrderStatus.DELIVERED, OrderStatus.CANCELLED] then
    (Except.error ApiError.cashierStatusForbidden, db)
  else
    match db.findOrder orderId with
    | Option.none => (Except.error ApiError.orderNotFound, db)
    | Option.some currentOrder =>
      if status ∉ validTransitions currentOrder.status then
        (Except.error (ApiError.invalidTransition currentOrder.status status), db)
      else
        let db1 :=
          if status = OrderStatus.CANCELLED then
            match db.paymentFor currentOrder.id with
            | Option.some p => db.setPaymentStatus p.id PaymentStatus.REFUNDED
            | Option.none => db
          else db
        (Except.ok { currentOrder with status := status }, db1.setOrderStatus orderId status)

/-- updateOrderStatus against a store whose writes may fail partway: the two
prisma calls in the source (payment.update, then order.update) are issued
sequentially and are not wrapped in a transaction, so a write that throws
leaves the earlier write committed and is surfaced by the catch branch as the
generic 500 error.  okWrites is the number of store writes that succeed
before the store fails; with okWrites at least 2 this function agrees with
updateOrderStatus. -/
def updateOrderStatusW (user : User) (orderId : Nat) (status : OrderStatus)
    (db : DB) (okWrites : Nat) : Except ApiError Order × DB :=
  if user.role = Role.CHEF ∧ status ∉ [OrderStatus.PREPARING, OrderStatus.READY] then
    (Except.error ApiError.chefStatusForbidden, db)
  else if user.role = Role.CASHIER ∧ status ∉ [OrderStatus.DELIVERED, OrderStatus.CANCELLED] then
    (Except.error ApiError.cashierStatusForbidden, db)
  else
    match db.findOrder orderId with
    | Option.none => (Except.error ApiError.orderNotFound, db)
    | Option.some currentOrder =>
      if status ∉ validTransitions currentOrder.status then
        (Except.error (ApiError.invalidTransition currentOrder.status status), db)
      else
        match (if status = OrderStatus.CANCELLED then db.paymentFor currentOrder.id
               else Option.none) with
        | Option.some p =>
          if okWrites = 0 then (Except.error ApiError.storeFailure, db)
          else
            let db1 := db.setPaymentStatus p.id PaymentStatus.REFUNDED
            if okWrites = 1 then (Except.error ApiError.storeFailure, db1)
            else (Except.ok { currentOrder with status := status }, db1.setOrderStatus orderId status)
        | Option.none =>
          if okWrites = 0 then (Except.error ApiError.storeFailure, db)
          else (Except.ok { currentOrder with status := status }, db.setOrderStatus orderId status)

/-- The status route (orderRoutes.ts): authorizeRole restricts PATCH
/:id/status to CHEF and CASHIER before the controller runs. -/
def patchOrderStatusRoute (user : User) (orderId : Nat) (status : OrderStatus)
    (db : DB) : Except ApiError Order × DB :=
  if user.role ∈ [Role.CHEF, Role.CASHIER] then
    updateOrderStatus user orderId status db
  else
    (Except.error ApiError.accessDeniedRole, db)

/-- Modelled from the spec (section 4.1 table): the set of statuses a role may
request through the transition operation.  CHEF is limited to PREPARING and
READY, CASHIER to DELIVERED and CANCELLED; no other role may request a
transition.  Used only to compare the source behaviour against the spec. -/
def specRolePermitted : Role → List OrderStatus
  | Role.CHEF => [OrderStatus.PREPARING, OrderStatus.READY]
  | Role.CASHIER => [OrderStatus.DELIVERED, OrderStatus.CANCELLED]
  | _ => []

/-- One requested line item of a createOrder request body. -/
structure OrderItemReq where
  menuItemId : Nat
  quantity : Nat
deriving DecidableEq

/-- The createOrder request body (branchId, items, deliveryAddress,
customerId), with optional fields modelled as options. -/
structure CreateOrderReq where
  branchId : Option Nat
  items : List OrderItemReq
  deliveryAddress : Option String
  customerId : Option Nat
deriving DecidableEq

/-- The normalize helper of the branch matcher: lower-case and strip every
character that is not a lower-case letter or digit (the source regex
[^a-z0-9] applied after toLowerCase; ASCII case mapping, which agrees with
the JavaScript semantics on ASCII input). -/
def normalize (s : String) : String :=
  String.mk ((s.data.map Char.toLower).filter
    (fun c => ('a' ≤ c && c ≤ 'z') || ('0' ≤ c && c ≤ '9')))

/-- Count of position-wise equal characters of two character lists, up to the
length of the shorter one (the for loop over Math.min of the lengths). -/
def charMatches (a b : List Char) : Nat :=
  (a.zip b).countP (fun p => p.1 == p.2)

/-- Similarity score of one branch against an already-normalized input
address. -/
def scoreAgainst (inputNorm : String) (br : Branch) : Nat :=
  charMatches (normalize br.address).data inputNorm.data

/-- Similarity score of a branch against a raw delivery address. -/
def branchScore (input : String) (br : Branch) : Nat :=
  scoreAgainst (normalize input) br

/-- One iteration of the best/bestScore loop: replace the current best only
on a strictly larger score. -/
def pickStep (inputNorm : String) (acc : Branch × Nat) (br : Branch) : Branch × Nat :=
  if scoreAgainst inputNorm br > acc.2 then (br, scoreAgainst inputNorm br) else acc

/-- The branch matching loop of createOrder: best starts at branches[0] with
score 0, and the loop runs over the whole branch list. -/
def pickBranch (branches : List Branch) (b0 : Branch) (deliveryAddress : String) : Branch :=
  (branches.foldl (pickStep (normalize deliveryAddress)) (b0, 0)).1

/-- The branch assignment step of createOrder: when the request carries no
truthy branchId but a truthy delivery address, fetch all branches (failing
when there are none) and pick the best match; otherwise keep the request
branchId as is. -/
def assignBranch (db : DB) (branchId : Option Nat) (deliveryAddress : Option String) :
    Except ApiError (Option Nat) :=
  if truthyNat branchId = false ∧ truthyStr deliveryAddress = true then
    match db.branches with
    | [] => Except.error ApiError.noBranches
    | b0 :: rest =>
      Except.ok (Option.some (pickBranch (b0 :: rest) b0 (deliveryAddress.getD "")).id)
  else Except.ok branchId

/-- The item loop of createOrder: walk the requested items in order,
looking each up in the catalog, failing on the first missing or unavailable
one, and otherwise accumulating the priced order items and the running
total (totalAmount += subtotal). -/
def processItemsAux (db : DB) (reqs : List OrderItemReq) (acc : List OrderItem)
    (total : Rat) : Except ApiError (List OrderItem × Rat) :=
  match reqs with
  | [] => Except.ok (acc, total)
  | item :: rest =>
    match db.findMenuItem item.menuItemId with
    | Option.none => Except.error (ApiError.itemNotFound item.menuItemId)
    | Option.some menuItem =>
      if menuItem.isAvailable = false then
        Except.error (ApiError.itemUnavailable menuItem.name)
      else
        let subtotal := menuItem.price * (item.quantity : Rat)
        processItemsAux db rest
          (acc ++ [{ menuItemId := menuItem.id, quantity := item.quantity,
                     unitPrice := menuItem.price, subtotal := subtotal }])
          (total + subtotal)

/-- Autoincrement id for a new order row. -/
def DB.nextOrderId (db : DB) : Nat :=
  (db.orders.map Order.id).foldl max 0 + 1

/-- Autoincrement id for a new payment row. -/
def DB.nextPaymentId (db : DB) : Nat :=
  (db.payments.map Payment.id).foldl max 0 + 1

/-- The actual customer id resolution of createOrder: customers always order
for themselves; cashiers and managers use the request customer id when it is
truthy and fall back to their own id otherwise (walk-in orders). -/
def resolveCustomerId (user : User) (customerId : Option Nat) : Nat :=
  if user.role = Role.CUSTOMER then user.id
  else match customerId with
    | Option.some c => if c ≠ 0 then c else user.id
    | Option.none => user.id

/-- createOrder controller (orderController.ts lines 138-259): resolve the
actual customer id from the role (customers always order for themselves,
other permitted roles fall back to their own id when the request customer id
is falsy), reject empty item lists, assign the branch, price the items, and
persist the new PENDING order.  The authenticated user is a given, as the
route requires authenticateToken. -/
def createOrder (user : User) (req : CreateOrderReq) (db : DB) :
    Except ApiError Order × DB :=
  if user.role ∉ [Role.CUSTOMER, Role.CASHIER, Role.BRANCH_MANAGER,
                  Role.ADMIN, Role.GENERAL_MANAGER] then
    (Except.error ApiError.insufficientPermissions, db)
  else
    if req.items = [] then (Except.error ApiError.emptyOrder, db)
    else
      match assignBranch db req.branchId req.deliveryAddress with
      | Except.error e => (Except.error e, db)
      | Except.ok resolvedBranch =>
        if truthyNat resolvedBranch = false then (Except.error ApiError.missingBranch, db)
        else
          match processItemsAux db req.items [] 0 with
          | Except.error e => (Except.error e, db)
          | Except.ok (orderItems, totalAmount) =>
            let order : Order :=
              { id := db.nextOrderId,
                status := OrderStatus.PENDING,
                totalAmount := totalAmount,
                customerId := resolveCustomerId user req.customerId,
                branchId := resolvedBranch.getD 0,
                deliveryAddress :=
                  if truthyStr req.deliveryAddress then req.deliveryAddress else Option.none,
                items := orderItems }
            (Except.ok order, { db with orders := db.orders ++ [order] })

/-- The create route (orderRoutes.ts): POST / is restricted to CUSTOMER and
CASHIER by authorizeRole before the controller runs. -/
def createOrderRoute (user : User) (req : CreateOrderReq) (db : DB) :
    Except ApiError Order × DB :=
  if user.role ∈ [Role.CUSTOMER, Role.CASHIER] then createOrder user req db
  else (Except.error ApiError.accessDeniedRole, db)

/-- Query parameters of GET /orders.  The source reads them as strings and
applies truthiness; presence of a parameter is modelled as Option.some. -/
structure OrdersQuery where
  branchId : Option Nat
  status : Option OrderStatus
  customerId : Option Nat
deriving DecidableEq

/-- The whereClause object accumulated by getOrders. -/
structure WhereClause where
  branchId : Option Nat
  customerId : Option Nat
  status : Option OrderStatus
deriving DecidableEq

/-- The whereClause construction of getOrders (orderController.ts lines
59-84): role-based implicit scoping, then the additional query filters that
only privileged roles may apply. -/
def buildWhereClause (user : User) (q : OrdersQuery) : WhereClause :=
  let w : WhereClause :=
    { branchId := Option.none, customerId := Option.none, status := Option.none }
  let w :=
    if user.role = Role.CHEF ∨ user.role = Role.CASHIER then
      if truthyNat user.branchId then { w with branchId := user.branchId } else w
    else if user.role = Role.CUSTOMER then
      { w with customerId := Option.some user.id }
    else if user.role = Role.BRANCH_MANAGER then
      if truthyNat user.branchId then { w with branchId := user.branchId } else w
    else w
  let w :=
    if q.branchId.isSome ∧ (user.role = Role.ADMIN ∨ user.role = Role.GENERAL_MANAGER) then
      { w with branchId := q.branchId }
    else w
  let w := if q.status.isSome then { w with status := q.status } else w
  let w :=
    if q.customerId.isSome ∧ (user.role = Role.ADMIN ∨ user.role = Role.GENERAL_MANAGER
        ∨ user.role = Role.BRANCH_MANAGER) then
      { w with customerId := q.customerId }
    else w
  w

/-- Whether an order row satisfies a whereClause. -/
def matchesWhere (w : WhereClause) (o : Order) : Bool :=
  (match w.branchId with
   | Option.none => true
   | Option.some b => o.branchId == b) &&
  (match w.customerId with
   | Option.none => true
   | Option.some c => o.customerId == c) &&
  (match w.status with
   | Option.none => true
   | Option.some s => o.status == s)

/-- getOrders controller (orderController.ts lines 55-111): findMany with the
accumulated whereClause.  The result ordering (createdAt desc) is not
modelled; the claims are about membership only. -/
def getOrders (user : User) (q : OrdersQuery) (db : DB) : List Order :=
  db.orders.filter (matchesWhere (buildWhereClause user q))

/-- deleteOrder controller (orderController.ts lines 338-381): fetch the
order, reject roles outside ADMIN and BRANCH_MANAGER, reject missing and
DELIVERED orders, mark an existing payment REFUNDED, then delete the order
row.  The store is abstract here, as in the spec: the delete removes the
order row and leaves the (refunded) payment row in place. -/
def deleteOrder (user : User) (orderId : Nat) (db : DB) :
    Except ApiError Unit × DB :=
  let order := db.findOrder orderId
  if user.role ∉ [Role.ADMIN, Role.BRANCH_MANAGER] then
    (Except.error ApiError.unauthorizedDelete, db)
  else
    match order with
    | Option.none => (Except.error ApiError.orderNotFound, db)
    | Option.some o =>
      if o.status = OrderStatus.DELIVERED then
        (Except.error ApiError.cannotDeleteDelivered, db)
      else
        let db1 :=
          match db.paymentFor o.id with
          | Option.some p => db.setPaymentStatus p.id PaymentStatus.REFUNDED
          | Option.none => db
        let db2 := { db1 with orders := db1.orders.filter (fun r => r.id != orderId) }
        (Except.ok (), db2)

/-- The delete route (orderRoutes.ts): DELETE /:id is restricted to ADMIN and
BRANCH_MANAGER by authorizeRole before the controller runs. -/
def deleteOrderRoute (user : User) (orderId : Nat) (db : DB) :
    Except ApiError Unit × DB :=
  if user.role ∈ [Role.ADMIN, Role.BRANCH_MANAGER] then deleteOrder user orderId db
  else (Except.error ApiError.accessDeniedRole, db)

/-- processPayment controller (paymentController.ts lines 7-71): require a
truthy amount and method, fetch the order with its payment, apply the
customer-ownership and cashier-branch authorization checks, reject duplicate
payments and mismatched amounts, then create the COMPLETED payment row. -/
def processPayment (user : User) (orderId : Nat) (amount : Option Rat)
    (method : Option PaymentMethod) (db : DB) : Except ApiError Payment × DB :=
  if truthyRat amount = false ∨ method.isNone then
    (Except.error ApiError.paymentFieldsRequired, db)
  else
    match db.findOrder orderId with
    | Option.none => (Except.error ApiError.orderNotFound, db)
    | Option.some order =>
      if user.role = Role.CUSTOMER ∧ order.customerId ≠ user.id then
        (Except.error ApiError.unauthorizedPayment, db)
      else if user.role = Role.CASHIER ∧ user.branchId ≠ Option.some order.branchId then
        (Except.error ApiError.unauthorizedPayment, db)
      else if (db.paymentFor order.id).isSome then
        (Except.error ApiError.duplicatePayment, db)
      else if |amount.getD 0 - order.totalAmount| > (1 : Rat) / 100 then
        (Except.error ApiError.amountMismatch, db)
      else
        let payment : Payment :=
          { id := db.nextPaymentId, orderId := orderId, amount := amount.getD 0,
            method := method.getD PaymentMethod.CASH, status := PaymentStatus.COMPLETED }
        (Except.ok payment, { db with payments := db.payments ++ [payment] })

/-- The payment route (dist/routes/paymentRoutes.js): POST /:orderId is
restricted to CUSTOMER and CASHIER by authorizeRole before the controller
runs. -/
def processPaymentRoute (user : User) (orderId : Nat) (amount : Option Rat)
    (method : Option PaymentMethod) (db : DB) : Except ApiError Payment × DB :=
  if user.role ∈ [Role.CUSTOMER, Role.CASHIER] then
    processPayment user orderId amount method db
  else (Except.error ApiError.accessDeniedRole, db)

/-- Concrete fixture: a cashier assigned to branch 1. -/
def c1user : User := { id := 9, role := Role.CASHIER, branchId := Option.some 1 }

/-- Concrete fixture: a cashier of branch 1 used for the cancellation claim. -/
def c2user : User := { id := 8, role := Role.CASHIER, branchId := Option.some 1 }

/-- Concrete fixture: a READY order of branch 1 with total 20. -/
def c2order : Order :=
  { id := 1, status := OrderStatus.READY, totalAmount := 20, customerId := 7,
    branchId := 1, deliveryAddress := Option.none, items := [] }

/-- Concrete fixture: the completed payment of c2order. -/
def c2pay : Payment :=
  { id := 1, orderId := 1, amount := 20, method := PaymentMethod.CASH,
    status := PaymentStatus.COMPLETED }

/-- Concrete fixture: a store with c2order and its completed payment. -/
def c2db : DB :=
  { orders := [c2order], payments := [c2pay], menuItems := [], branches := [] }

/-- Concrete fixture: a cashier of branch 1 targeting another branch. -/
def c3user : User := { id := 9, role := Role.CASHIER, branchId := Option.some 1 }

/-- Concrete fixture: a branch manager of branch 1. -/
def c3manager : User := { id := 3, role := Role.BRANCH_MANAGER, branchId := Option.some 1 }

/-- Concrete fixture: a READY order belonging to branch 2. -/
def c3order : Order :=
  { id := 1, status := OrderStatus.READY, totalAmount := 20, customerId := 7,
    branchId := 2, deliveryAddress := Option.none, items := [] }

/-- Concrete fixture: a store holding just the branch-2 order. -/
def c3db : DB := { orders := [c3order], payments := [], menuItems := [], branches := [] }

/-- Concrete fixture: customer number 7. -/
def c5user : User := { id := 7, role := Role.CUSTOMER, branchId := Option.none }

/-- Concrete fixture: available menu item 3 priced 10.00. -/
def c5item : MenuItem :=
  { id := 3, name := "Pasta", price := 10, isAvailable := true, branchId := 1 }

/-- Concrete fixture: a store with menu item 3 and no orders. -/
def c5db : DB := { orders := [], payments := [], menuItems := [c5item], branches := [] }

/-- Concrete fixture: request for two units of item 3, with a customerId
field that the controller must ignore for customers. -/
def c5req : CreateOrderReq :=
  { branchId := Option.some 1, items := [{ menuItemId := 3, quantity := 2 }],
    deliveryAddress := Option.none, customerId := Option.some 99 }

/-- Concrete fixture: the expected created order of scenario A. -/
def c5order : Order :=
  { id := 1, status := OrderStatus.PENDING, totalAmount := 20, customerId := 7,
    branchId := 1, deliveryAddress := Option.none,
    items := [{ menuItemId := 3, quantity := 2, unitPrice := 10, subtotal := 20 }] }

/-- Concrete fixture: the store after scenario A. -/
def c5dbOut : DB := { c5db with orders := [c5order] }

/-- The maximum of an initial score and the scores of a list of branches
against a normalized input, as accumulated left to right; used to
characterize the best/bestScore fold of the branch matcher. -/
def maxScoreFrom (inp : String) (l : List Branch) (bs : Nat) : Nat :=
  (l.map (scoreAgainst inp)).foldl max bs

/-- Concrete fixture: the branch at 42 Elm St. -/
def c7elm : Branch := { id := 1, name := "Branch1", address := "42 Elm St" }

/-- Concrete fixture: the branch at 99 Oak Ave. -/
def c7oak : Branch := { id := 2, name := "Branch2", address := "99 Oak Ave" }

/-- Concrete fixture: a store with the two branches of scenario D. -/
def c7db : DB :=
  { orders := [], payments := [], menuItems := [], branches := [c7elm, c7oak] }

/-- The first item-level failure of an item request list, in request order:
item-not-found for a missing menu item, item-unavailable for a present but
unavailable one; none when every item resolves. -/
def firstItemError (db : DB) : List OrderItemReq → Option ApiError
  | [] => Option.none
  | r :: rest =>
    match db.findMenuItem r.menuItemId with
    | Option.none => Option.some (ApiError.itemNotFound r.menuItemId)
    | Option.some mi =>
      if mi.isAvailable = false then Option.some (ApiError.itemUnavailable mi.name)
      else firstItemError db rest

/-- Concrete fixture: a customer creating the mixed-failure order. -/
def c8user : User := { id := 7, role := Role.CUSTOMER, branchId := Option.none }

/-- Concrete fixture: menu item 1, present but unavailable. -/
def c8burger : MenuItem :=
  { id := 1, name := "Burger", price := 5, isAvailable := false, branchId := 1 }

/-- Concrete fixture: a catalog with only the unavailable item 1 (item 2 is
missing). -/
def c8db : DB := { orders := [], payments := [], menuItems := [c8burger], branches := [] }

/-- Concrete fixture: a request listing the unavailable item first and a
missing item second. -/
def c8req : CreateOrderReq :=
  { branchId := Option.some 1,
    items := [{ menuItemId := 1, quantity := 1 }, { menuItemId := 2, quantity := 1 }],
    deliveryAddress := Option.none, customerId := Option.none }

/-- Concrete fixture: a request listing only the missing item 2. -/
def c8reqW : CreateOrderReq :=
  { branchId := Option.some 1, items := [{ menuItemId := 2, quantity := 1 }],
    deliveryAddress := Option.none, customerId := Option.none }

/-- Concrete fixture: an admin (no branch). -/
def c9admin : User := { id := 2, role := Role.ADMIN, branchId := Option.none }

/-- Concrete fixture: a PENDING order with a payment. -/
def c9order : Order :=
  { id := 1, status := OrderStatus.PENDING, totalAmount := 20, customerId := 7,
    branchId := 1, deliveryAddress := Option.none, items := [] }

/-- Concrete fixture: the completed payment of c9order. -/
def c9pay : Payment :=
  { id := 1, orderId := 1, amount := 20, method := PaymentMethod.CASH,
    status := PaymentStatus.COMPLETED }

/-- Concrete fixture: a store with c9order and its payment. -/
def c9db : DB :=
  { orders := [c9order], payments := [c9pay], menuItems := [], branches := [] }

/-- Concrete fixture: a chef with no branch assigned. -/
def c10chef : User := { id := 4, role := Role.CHEF, branchId := Option.none }

/-- Concrete fixture: an order of branch 1. -/
def c10o1 : Order :=
  { id := 1, status := OrderStatus.PENDING, totalAmount := 10, customerId := 7,
    branchId := 1, deliveryAddress := Option.none, items := [] }

/-- Concrete fixture: an order of branch 2. -/
def c10o2 : Order :=
  { id := 2, status := OrderStatus.PENDING, totalAmount := 12, customerId := 8,
    branchId := 2, deliveryAddress := Option.none, items := [] }

/-- Concrete fixture: a store with one order in each of two branches. -/
def c10db : DB :=
  { orders := [c10o1, c10o2], payments := [], menuItems := [], branches := [] }

/-- Concrete fixture: a query that even tries to name a branch and a
customer, which getOrders ignores for non-privileged roles. -/
def c10q : OrdersQuery :=
  { branchId := Option.some 5, status := Option.none, customerId := Option.some 9 }

/-- Concrete fixture: customer number 5, who does not own the paid order. -/
def c6user : User := { id := 5, role := Role.CUSTOMER, branchId := Option.none }

/-- Concrete fixture: customer number 7, the owner of the paid order. -/
def c6owner : User := { id := 7, role := Role.CUSTOMER, branchId := Option.none }

/-- Concrete fixture: a READY order of customer 7 totalling 20.00. -/
def c6order : Order :=
  { id := 1, status := OrderStatus.READY, totalAmount := 20, customerId := 7,
    branchId := 1, deliveryAddress := Option.none, items := [] }

/-- Concrete fixture: the existing completed payment of c6order. -/
def c6pay : Payment :=
  { id := 1, orderId := 1, amount := 20, method := PaymentMethod.CASH,
    status := PaymentStatus.COMPLETED }

/-- Concrete fixture: a store with c6order and its payment. -/
def c6db : DB :=
  { orders := [c6order], payments := [c6pay], menuItems := [], branches := [] }

/-- Concrete fixture: a chef of branch 1. -/
def c4chef : User := { id := 4, role := Role.CHEF, branchId := Option.some 1 }

/-- Concrete fixture: a DELIVERED (terminal) order. -/
def c4order : Order :=
  { id := 1, status := OrderStatus.DELIVERED, totalAmount := 15, customerId := 7,
    branchId := 1, deliveryAddress := Option.none, items := [] }

/-- Concrete fixture: a store holding just the DELIVERED order. -/
def c4db : DB := { orders := [c4order], payments := [], menuItems := [], branches := [] }

/-- Concrete fixture: an order of branch 1 in state READY. -/
def c1order : Order :=
  { id := 1, status := OrderStatus.READY, totalAmount := 20, customerId := 7,
    branchId := 1, deliveryAddress := Option.none, items := [] }

/-- Concrete fixture: a store holding just c1order. -/
def c1db : DB := { orders := [c1order], payments := [], menuItems := [], branches := [] }

end Steakz

namespace Steakz

/-- C1: the status-transition operation (route guard plus updateOrderStatus)
accepts exactly when the requested status is reachable from the current
status per validTransitions and the requested status is in the permitted set
of the requesting role (CHEF: PREPARING/READY, CASHIER: DELIVERED/CANCELLED,
all other roles: none). -/
theorem transition_accept_iff (user : User) (orderId : Nat) (status : OrderStatus)
    (db : DB) (o : Order) (ho : db.findOrder orderId = Option.some o) :
    (∃ r, (patchOrderStatusRoute user orderId status db).1 = Except.ok r) ↔
      status ∈ validTransitions o.status ∧ status ∈ specRolePermitted user.role := by
  cases hrole : user.role <;> cases status <;> cases hos : o.status <;>
    simp [patchOrderStatusRoute, updateOrderStatus, specRolePermitted,
      validTransitions, ho, hrole, hos]

/-- Witness for C1 at a concrete input: a branch-1 cashier requesting
DELIVERED on a READY order, which both tables allow. -/
theorem transition_accept_iff_witness :
    (∃ r, (patchOrderStatusRoute c1user 1 OrderStatus.DELIVERED c1db).1 = Except.ok r) ↔
      OrderStatus.DELIVERED ∈ validTransitions OrderStatus.READY ∧
      OrderStatus.DELIVERED ∈ specRolePermitted Role.CASHIER :=
  transition_accept_iff c1user 1 OrderStatus.DELIVERED c1db c1order rfl

/-- A status write on the orders table does not affect payment lookups. -/
theorem paymentFor_setOrderStatus (db : DB) (i oid : Nat) (st : OrderStatus) :
    (db.setOrderStatus i st).paymentFor oid = db.paymentFor oid := rfl

/-- A status write on the payments table does not affect order lookups. -/
theorem findOrder_setPaymentStatus (db : DB) (i oid : Nat) (st : PaymentStatus) :
    (db.setPaymentStatus i st).findOrder oid = db.findOrder oid := rfl

/-- Updating the status of the order found at an id is visible at the same
lookup. -/
theorem findOrder_setOrderStatus_self (db : DB) (oid : Nat) (o : Order)
    (st : OrderStatus) (ho : db.findOrder oid = Option.some o) :
    (db.setOrderStatus oid st).findOrder oid = Option.some { o with status := st } := by
  have h : ∀ l : List Order, l.find? (fun r => r.id == oid) = Option.some o →
      (l.map (fun r => if r.id == oid then { r with status := st } else r)).find?
        (fun r => r.id == oid) = Option.some { o with status := st } := by
    intro l
    induction l with
    | nil => intro h; simp at h
    | cons a t ih =>
      intro h
      by_cases ha : a.id = oid
      · have hb : (a.id == oid) = true := by simpa using ha
        simp only [List.find?_cons, hb] at h
        have hao : a = o := by simpa using h
        subst hao
        simp [List.find?_cons, hb, ha]
      · have hb : (a.id == oid) = false := by simpa using ha
        simp only [List.find?_cons, hb] at h
        rw [List.map_cons]
        rw [List.find?_cons_of_neg _ (by simp [hb])]
        exact ih h
  exact h db.orders ho

/-- Updating the status of the payment row joined to an order is visible at
the same join. -/
theorem paymentFor_setPaymentStatus_self (db : DB) (oid : Nat) (p : Payment)
    (st : PaymentStatus) (hp : db.paymentFor oid = Option.some p) :
    (db.setPaymentStatus p.id st).paymentFor oid = Option.some { p with status := st } := by
  have h : ∀ l : List Payment, l.find? (fun r => r.orderId == oid) = Option.some p →
      (l.map (fun r => if r.id == p.id then { r with status := st } else r)).find?
        (fun r => r.orderId == oid) = Option.some { p with status := st } := by
    intro l
    induction l with
    | nil => intro h; simp at h
    | cons a t ih =>
      intro h
      by_cases ha : a.orderId = oid
      · have hb : (a.orderId == oid) = true := by simpa using ha
        simp only [List.find?_cons, hb] at h
        have hap : a = p := by simpa using h
        subst hap
        simp [List.find?_cons, hb, ha]
      · have hb : (a.orderId == oid) = false := by simpa using ha
        simp only [List.find?_cons, hb] at h
        rw [List.map_cons]
        rw [List.find?_cons_of_neg _ (by cases hsplit : (a.id == p.id) <;> simp [hsplit, hb])]
        exact ih h
  exact h db.payments hp

/-- With two successful writes the fallible model agrees with the plain
controller embedding. -/
theorem updateOrderStatusW_two (user : User) (oid : Nat) (st : OrderStatus) (db : DB) :
    updateOrderStatusW user oid st db 2 = updateOrderStatus user oid st db := by
  unfold updateOrderStatusW updateOrderStatus
  by_cases h1 : user.role = Role.CHEF ∧ st ∉ [OrderStatus.PREPARING, OrderStatus.READY]
  · simp [h1]
  · by_cases h2 : user.role = Role.CASHIER ∧ st ∉ [OrderStatus.DELIVERED, OrderStatus.CANCELLED]
    · simp [h1, h2]
    · simp only [h1, h2, if_false, if_neg]
      cases ho : db.findOrder oid with
      | none => rfl
      | some o =>
        by_cases ht : st ∉ validTransitions o.status
        · simp [ht]
        · by_cases hc : st = OrderStatus.CANCELLED
          · cases hpay : db.paymentFor o.id <;> simp [ht, hc, hpay]
          · simp [ht, hc]

/-- C2 counterexample: the refund and the status update are two separate
sequential store writes with no transaction around them; when the store
fails after the first write, the payment of a READY order requested to be
CANCELLED is left REFUNDED while the order status is unchanged (READY, not
CANCELLED), contradicting the claimed atomicity. -/
theorem cancel_refund_partial_state :
    (((updateOrderStatusW c2user 1 OrderStatus.CANCELLED c2db 1).2.paymentFor 1).map
        Payment.status = Option.some PaymentStatus.REFUNDED)
    ∧ (((updateOrderStatusW c2user 1 OrderStatus.CANCELLED c2db 1).2.findOrder 1).map
        Order.status = Option.some OrderStatus.READY)
    ∧ OrderStatus.READY ≠ OrderStatus.CANCELLED := by
  refine ⟨rfl, rfl, by decide⟩

/-- C2 amended: when every store write succeeds (at least the two needed
writes are available), cancelling an order that has a payment updates both
rows together: the order becomes CANCELLED and its payment REFUNDED.  The
two updates are nevertheless separate sequential writes (payment first), so
the all-or-nothing guarantee of the original claim does not hold when the
store fails between them. -/
theorem cancel_refund_both_on_success (user : User) (oid : Nat) (db : DB)
    (o : Order) (p : Payment) (n : Nat)
    (ho : db.findOrder oid = Option.some o) (hp : db.paymentFor oid = Option.some p)
    (hn : 2 ≤ n)
    (hok : ∃ r, (updateOrderStatusW user oid OrderStatus.CANCELLED db n).1 = Except.ok r) :
    (((updateOrderStatusW user oid OrderStatus.CANCELLED db n).2.findOrder oid).map
        Order.status = Option.some OrderStatus.CANCELLED)
    ∧ (((updateOrderStatusW user oid OrderStatus.CANCELLED db n).2.paymentFor oid).map
        Payment.status = Option.some PaymentStatus.REFUNDED) := by
  have hid : o.id = oid := by
    have := List.find?_some ho
    simpa using this
  have h0 : ¬ n = 0 := by omega
  have h1 : ¬ n = 1 := by omega
  have hpay : db.paymentFor o.id = Option.some p := by rw [hid]; exact hp
  by_cases hc : user.role = Role.CHEF
  · exfalso
    obtain ⟨r, hr⟩ := hok
    simp [updateOrderStatusW, hc] at hr
  · by_cases ht : OrderStatus.CANCELLED ∈ validTransitions o.status
    · have hred : updateOrderStatusW user oid OrderStatus.CANCELLED db n
          = (Except.ok { o with status := OrderStatus.CANCELLED },
             (db.setPaymentStatus p.id PaymentStatus.REFUNDED).setOrderStatus oid
               OrderStatus.CANCELLED) := by
        simp [updateOrderStatusW, hc, ho, ht, hpay, h0, h1]
      have hfind : ((db.setPaymentStatus p.id PaymentStatus.REFUNDED).setOrderStatus oid
          OrderStatus.CANCELLED).findOrder oid
          = Option.some { o with status := OrderStatus.CANCELLED } := by
        apply findOrder_setOrderStatus_self
        rw [findOrder_setPaymentStatus]
        exact ho
      have hjoin : ((db.setPaymentStatus p.id PaymentStatus.REFUNDED).setOrderStatus oid
          OrderStatus.CANCELLED).paymentFor oid
          = Option.some { p with status := PaymentStatus.REFUNDED } := by
        rw [paymentFor_setOrderStatus]
        exact paymentFor_setPaymentStatus_self db oid p PaymentStatus.REFUNDED hp
      constructor
      · simp [hred, hfind]
      · simp [hred, hjoin]
    · exfalso
      obtain ⟨r, hr⟩ := hok
      simp [updateOrderStatusW, hc, ho, ht] at hr

/-- Witness for the amended C2 at a concrete input: the branch-1 cashier
cancels the READY order with a completed payment and both rows update. -/
theorem cancel_refund_both_on_success_witness :
    (((updateOrderStatusW c2user 1 OrderStatus.CANCELLED c2db 2).2.findOrder 1).map
        Order.status = Option.some OrderStatus.CANCELLED)
    ∧ (((updateOrderStatusW c2user 1 OrderStatus.CANCELLED c2db 2).2.paymentFor 1).map
        Payment.status = Option.some PaymentStatus.REFUNDED) :=
  cancel_refund_both_on_success c2user 1 c2db c2order c2pay 2 rfl rfl (by decide)
    ⟨{ c2order with status := OrderStatus.CANCELLED }, rfl⟩

/-- C3 evidence: the status-transition and deletion handlers perform no
branch check at all.  A cashier assigned to branch 1 successfully marks a
READY order of branch 2 as DELIVERED, and a branch manager assigned to
branch 1 successfully deletes an order of branch 2; the spec (and the
controller module header documentation) require such cross-branch requests
to be denied. -/
theorem crossbranch_requests_accepted :
    c3user.branchId = Option.some 1
    ∧ c3manager.branchId = Option.some 1
    ∧ c3order.branchId = 2
    ∧ (patchOrderStatusRoute c3user 1 OrderStatus.DELIVERED c3db).1
        = Except.ok { c3order with status := OrderStatus.DELIVERED }
    ∧ (((patchOrderStatusRoute c3user 1 OrderStatus.DELIVERED c3db).2.findOrder 1).map
        Order.status = Option.some OrderStatus.DELIVERED)
    ∧ (deleteOrderRoute c3manager 1 c3db).1 = Except.ok ()
    ∧ ((deleteOrderRoute c3manager 1 c3db).2.findOrder 1 = Option.none) := by
  refine ⟨rfl, rfl, rfl, rfl, rfl, rfl, rfl⟩

/-- C4 counterexample: on a DELIVERED (terminal) order, a chef requesting
CANCELLED is rejected by the role check with the chefs-only error, not with
the invalid-transition error, so the claim that every further transition
request fails with INVALID_TRANSITION for all identities and statuses is
false. -/
theorem terminal_reject_not_invalid_transition :
    c4order.status = OrderStatus.DELIVERED
    ∧ (patchOrderStatusRoute c4chef 1 OrderStatus.CANCELLED c4db).1
        = Except.error ApiError.chefStatusForbidden
    ∧ ApiError.chefStatusForbidden.isInvalidTransitionErr = false := by
  refine ⟨rfl, rfl, rfl⟩

/-- C4 amended: once an order is DELIVERED or CANCELLED every further
transition request fails and leaves the store unchanged; the error is
INVALID_TRANSITION exactly for requests that pass the route and role checks
(CHEF asking for PREPARING/READY, CASHIER asking for DELIVERED/CANCELLED),
while other requests fail earlier with a role error. -/
theorem terminal_no_further_transitions (user : User) (orderId : Nat)
    (status : OrderStatus) (db : DB) (o : Order)
    (ho : db.findOrder orderId = Option.some o)
    (hterm : o.status = OrderStatus.DELIVERED ∨ o.status = OrderStatus.CANCELLED) :
    (∃ e, (patchOrderStatusRoute user orderId status db).1 = Except.error e)
    ∧ (patchOrderStatusRoute user orderId status db).2 = db
    ∧ (status ∈ specRolePermitted user.role →
        (patchOrderStatusRoute user orderId status db).1
          = Except.error (ApiError.invalidTransition o.status status)) := by
  cases hrole : user.role <;> cases status <;> rcases hterm with hos | hos <;>
    simp [patchOrderStatusRoute, updateOrderStatus, specRolePermitted,
      validTransitions, ho, hrole, hos]

/-- Witness for the amended C4 at a concrete input: a chef asks to move a
DELIVERED order back to PREPARING (a status chefs may request) and receives
the invalid-transition error, with the store unchanged. -/
theorem terminal_no_further_transitions_witness :
    (∃ e, (patchOrderStatusRoute c4chef 1 OrderStatus.PREPARING c4db).1 = Except.error e)
    ∧ (patchOrderStatusRoute c4chef 1 OrderStatus.PREPARING c4db).2 = c4db
    ∧ (OrderStatus.PREPARING ∈ specRolePermitted c4chef.role →
        (patchOrderStatusRoute c4chef 1 OrderStatus.PREPARING c4db).1
          = Except.error (ApiError.invalidTransition c4order.status OrderStatus.PREPARING)) :=
  terminal_no_further_transitions c4chef 1 OrderStatus.PREPARING c4db c4order rfl
    (Or.inl rfl)

/-- Soundness of the item pricing loop: on success the returned items extend
the accumulator with one priced row per requested item, the returned total
extends the accumulator total by the new subtotals in order, and every new
row snapshots the catalog price of an existing, available menu item. -/
theorem processItemsAux_ok (db : DB) (reqs : List OrderItemReq) (acc : List OrderItem)
    (total : Rat) (out : List OrderItem) (tot : Rat)
    (h : processItemsAux db reqs acc total = Except.ok (out, tot)) :
    ∃ newItems : List OrderItem, out = acc ++ newItems
      ∧ tot = total + ((newItems.map (fun it => it.unitPrice * (it.quantity : Rat))).sum)
      ∧ ∀ it ∈ newItems, ∃ mi : MenuItem,
          db.findMenuItem it.menuItemId = Option.some mi
          ∧ mi.isAvailable = true
          ∧ it.unitPrice = mi.price
          ∧ it.subtotal = mi.price * (it.quantity : Rat) := by
  induction reqs generalizing acc total with
  | nil =>
    simp only [processItemsAux, Except.ok.injEq, Prod.mk.injEq] at h
    refine ⟨[], ?_, ?_, ?_⟩
    · simp [h.1]
    · simp [h.2]
    · simp
  | cons r rest ih =>
    simp only [processItemsAux] at h
    cases hmi : db.findMenuItem r.menuItemId with
    | none =>
      simp only [hmi] at h
      exact absurd h (by simp)
    | some mi =>
      simp only [hmi] at h
      by_cases hav : mi.isAvailable = false
      · rw [if_pos hav] at h
        exact absurd h (by simp)
      · rw [if_neg hav] at h
        obtain ⟨ni, hout, htot, hmem⟩ := ih _ _ h
        have hmid : mi.id = r.menuItemId := by
          have := List.find?_some hmi
          simpa using this
        refine ⟨{ menuItemId := mi.id, quantity := r.quantity, unitPrice := mi.price,
                  subtotal := mi.price * (r.quantity : Rat) } :: ni, ?_, ?_, ?_⟩
        · rw [hout]
          simp
        · rw [htot]
          simp only [List.map_cons, List.sum_cons]
          ring
        · intro it hit
          rcases List.mem_cons.mp hit with h1 | h1
          · subst h1
            refine ⟨mi, ?_, by simpa using hav, rfl, rfl⟩
            show db.findMenuItem mi.id = Option.some mi
            rw [hmid]
            exact hmi
          · exact hmem it h1

/-- A customer identity always becomes the customer of the order it creates. -/
theorem resolveCustomerId_customer (user : User) (customerId : Option Nat)
    (h : user.role = Role.CUSTOMER) :
    resolveCustomerId user customerId = user.id := by
  simp [resolveCustomerId, h]

/-- C5: every successfully created order has status PENDING and totalAmount
equal to the sum over its items of unitPrice times quantity, where every
unitPrice is the catalog price of an existing menu item at creation time
(and every subtotal is unitPrice times quantity); and for a CUSTOMER
identity the created order belongs to that customer regardless of the
customerId field of the request. -/
theorem createOrder_pending_total (user : User) (req : CreateOrderReq) (db : DB)
    (ord : Order) (db2 : DB)
    (h : createOrderRoute user req db = (Except.ok ord, db2)) :
    ord.status = OrderStatus.PENDING
    ∧ ord.totalAmount
        = ((ord.items.map (fun it => it.unitPrice * (it.quantity : Rat))).sum)
    ∧ (∀ it ∈ ord.items, ∃ mi : MenuItem,
        db.findMenuItem it.menuItemId = Option.some mi ∧ it.unitPrice = mi.price
          ∧ it.subtotal = it.unitPrice * (it.quantity : Rat))
    ∧ (user.role = Role.CUSTOMER → ord.customerId = user.id) := by
  unfold createOrderRoute at h
  split at h
  · unfold createOrder at h
    split at h
    · simp at h
    · split at h
      · simp at h
      · split at h
        · simp at h
        next hab =>
          split at h
          · simp at h
          · split at h
            · simp at h
            next out tot hpi =>
              simp only [Prod.mk.injEq, Except.ok.injEq] at h
              obtain ⟨hord, hdb⟩ := h
              obtain ⟨ni, hout, htot, hmem⟩ := processItemsAux_ok db req.items [] 0 out tot hpi
              simp only [List.nil_append] at hout
              subst hout
              refine ⟨?_, ?_, ?_, ?_⟩
              · rw [← hord]
              · rw [← hord]
                simp only []
                rw [htot]
                simp
              · intro it hit
                rw [← hord] at hit
                simp only [] at hit
                obtain ⟨mi, hfind, _, hup, hsub⟩ := hmem it hit
                exact ⟨mi, hfind, hup, by rw [hsub, hup]⟩
              · intro hcust
                rw [← hord]
                simp only []
                exact resolveCustomerId_customer user req.customerId hcust
  · simp at h

/-- C6 counterexample: the authorization check of processPayment runs before
the duplicate-payment check, so a CUSTOMER who does not own an
already-paid order receives the unauthorized error, not DUPLICATE_PAYMENT,
although the order already has a payment. -/
theorem duplicate_masked_by_authorization :
    ((c6db.paymentFor 1).isSome = true)
    ∧ (processPayment c6user 1 (Option.some 20) (Option.some PaymentMethod.CASH) c6db).1
        = Except.error ApiError.unauthorizedPayment
    ∧ ApiError.unauthorizedPayment ≠ ApiError.duplicatePayment := by
  refine ⟨rfl, rfl, by decide⟩

/-- C6 amended: the checks of processPayment run in a fixed order (required
fields, order lookup, customer/cashier authorization, duplicate payment,
amount tolerance) and each error fires when its condition holds and every
earlier check passed; on the success path the payment row is created with
status COMPLETED. -/
theorem processPayment_rules (user : User) (orderId : Nat) (amount : Rat)
    (method : PaymentMethod) (db : DB) (o : Order)
    (hamt : amount ≠ 0)
    (ho : db.findOrder orderId = Option.some o) :
    (((user.role = Role.CUSTOMER ∧ o.customerId ≠ user.id)
        ∨ (user.role = Role.CASHIER ∧ user.branchId ≠ Option.some o.branchId)) →
      processPayment user orderId (Option.some amount) (Option.some method) db
        = (Except.error ApiError.unauthorizedPayment, db))
    ∧ (¬((user.role = Role.CUSTOMER ∧ o.customerId ≠ user.id)
        ∨ (user.role = Role.CASHIER ∧ user.branchId ≠ Option.some o.branchId)) →
      (db.paymentFor orderId).isSome = true →
      processPayment user orderId (Option.some amount) (Option.some method) db
        = (Except.error ApiError.duplicatePayment, db))
    ∧ (¬((user.role = Role.CUSTOMER ∧ o.customerId ≠ user.id)
        ∨ (user.role = Role.CASHIER ∧ user.branchId ≠ Option.some o.branchId)) →
      (db.paymentFor orderId).isSome = false →
      |amount - o.totalAmount| > (1 : Rat) / 100 →
      processPayment user orderId (Option.some amount) (Option.some method) db
        = (Except.error ApiError.amountMismatch, db))
    ∧ (¬((user.role = Role.CUSTOMER ∧ o.customerId ≠ user.id)
        ∨ (user.role = Role.CASHIER ∧ user.branchId ≠ Option.some o.branchId)) →
      (db.paymentFor orderId).isSome = false →
      ¬(|amount - o.totalAmount| > (1 : Rat) / 100) →
      processPayment user orderId (Option.some amount) (Option.some method) db
        = (Except.ok { id := db.nextPaymentId, orderId := orderId, amount := amount,
                       method := method, status := PaymentStatus.COMPLETED },
           { db with payments := db.payments ++
               [{ id := db.nextPaymentId, orderId := orderId, amount := amount,
                  method := method, status := PaymentStatus.COMPLETED }] })) := by
  have hid : o.id = orderId := by
    have := List.find?_some ho
    simpa using this
  have hfields :
      ¬(truthyRat (Option.some amount) = false ∨ (Option.some method).isNone = true) := by
    simp [truthyRat, hamt]
  have hstep : processPayment user orderId (Option.some amount) (Option.some method) db
      = (if user.role = Role.CUSTOMER ∧ o.customerId ≠ user.id then
           (Except.error ApiError.unauthorizedPayment, db)
         else if user.role = Role.CASHIER ∧ user.branchId ≠ Option.some o.branchId then
           (Except.error ApiError.unauthorizedPayment, db)
         else if (db.paymentFor o.id).isSome then
           (Except.error ApiError.duplicatePayment, db)
         else if |amount - o.totalAmount| > (1 : Rat) / 100 then
           (Except.error ApiError.amountMismatch, db)
         else (Except.ok { id := db.nextPaymentId, orderId := orderId, amount := amount,
                           method := method, status := PaymentStatus.COMPLETED },
               { db with payments := db.payments ++
                   [{ id := db.nextPaymentId, orderId := orderId, amount := amount,
                      method := method, status := PaymentStatus.COMPLETED }] })) := by
    rw [processPayment, if_neg hfields, ho]
    rfl
  refine ⟨?_, ?_, ?_, ?_⟩
  · intro hauth
    rcases hauth with ⟨hc, hne⟩ | ⟨hc, hne⟩
    · rw [hstep, if_pos ⟨hc, hne⟩]
    · rw [hstep]
      by_cases hcu : user.role = Role.CUSTOMER ∧ o.customerId ≠ user.id
      · rw [if_pos hcu]
      · rw [if_neg hcu, if_pos ⟨hc, hne⟩]
  · intro hnauth hdup
    rw [not_or] at hnauth
    rw [hstep, if_neg hnauth.1, if_neg hnauth.2, hid, if_pos hdup]
  · intro hnauth hnodup hmis
    rw [not_or] at hnauth
    rw [hstep, if_neg hnauth.1, if_neg hnauth.2, hid]
    rw [if_neg (by simp [hnodup]), if_pos hmis]
  · intro hnauth hnodup hclose
    rw [not_or] at hnauth
    rw [hstep, if_neg hnauth.1, if_neg hnauth.2, hid]
    rw [if_neg (by simp [hnodup]), if_neg hclose]

/-- Witness for the amended C6 at a concrete input: the owner (customer 7)
retries payment on the already-paid order and receives the duplicate error
with the store unchanged, while the same request would be unauthorized for
customer 5. -/
theorem processPayment_rules_witness :
    processPayment c6owner 1 (Option.some 20) (Option.some PaymentMethod.CASH) c6db
      = (Except.error ApiError.duplicatePayment, c6db) := by
  have h := processPayment_rules c6owner 1 20 PaymentMethod.CASH c6db c6order
    (by norm_num) rfl
  exact h.2.1 (by simp [c6owner, c6order]) rfl

/-- The accumulator never exceeds the accumulated maximum. -/
theorem le_maxScoreFrom (inp : String) (l : List Branch) :
    ∀ bs : Nat, bs ≤ maxScoreFrom inp l bs := by
  induction l with
  | nil => intro bs; simp [maxScoreFrom]
  | cons a t ih =>
    intro bs
    have h1 : maxScoreFrom inp (a :: t) bs
        = maxScoreFrom inp t (max bs (scoreAgainst inp a)) := by
      simp [maxScoreFrom]
    rw [h1]
    exact le_trans (Nat.le_max_left _ _) (ih _)

/-- Every listed branch scores at most the accumulated maximum. -/
theorem el_le_maxScoreFrom (inp : String) (l : List Branch) :
    ∀ bs : Nat, ∀ c ∈ l, scoreAgainst inp c ≤ maxScoreFrom inp l bs := by
  induction l with
  | nil => intro bs c hc; simp at hc
  | cons a t ih =>
    intro bs c hc
    have h1 : maxScoreFrom inp (a :: t) bs
        = maxScoreFrom inp t (max bs (scoreAgainst inp a)) := by
      simp [maxScoreFrom]
    rw [h1]
    rcases List.mem_cons.mp hc with h | h
    · subst h
      exact le_trans (Nat.le_max_right _ _) (le_maxScoreFrom inp t _)
    · exact ih _ c h

/-- The accumulated maximum is the initial score or the score of some listed
branch. -/
theorem maxScoreFrom_cases (inp : String) (l : List Branch) :
    ∀ bs : Nat, maxScoreFrom inp l bs = bs
      ∨ ∃ c ∈ l, maxScoreFrom inp l bs = scoreAgainst inp c := by
  induction l with
  | nil => intro bs; left; simp [maxScoreFrom]
  | cons a t ih =>
    intro bs
    have h1 : maxScoreFrom inp (a :: t) bs
        = maxScoreFrom inp t (max bs (scoreAgainst inp a)) := by
      simp [maxScoreFrom]
    rcases ih (max bs (scoreAgainst inp a)) with h | ⟨c, hc, h⟩
    · by_cases hbs : scoreAgainst inp a ≤ bs
      · left
        rw [h1, h]
        omega
      · right
        refine ⟨a, List.mem_cons_self a t, ?_⟩
        rw [h1, h]
        omega
    · right
      exact ⟨c, List.mem_cons_of_mem a hc, by rw [h1]; exact h⟩

/-- Characterization of the best/bestScore loop of the branch matcher: the
final best score is the accumulated maximum, and the final best branch is
the first branch attaining that maximum when some branch strictly exceeds
the initial score, and the initial best branch otherwise. -/
theorem pickFold_char (inp : String) (l : List Branch) :
    ∀ (b : Branch) (bs : Nat),
    (l.foldl (pickStep inp) (b, bs)).2 = maxScoreFrom inp l bs
    ∧ (bs < maxScoreFrom inp l bs →
        l.find? (fun c => scoreAgainst inp c == maxScoreFrom inp l bs)
          = Option.some ((l.foldl (pickStep inp) (b, bs)).1))
    ∧ (¬ bs < maxScoreFrom inp l bs → (l.foldl (pickStep inp) (b, bs)).1 = b) := by
  induction l with
  | nil =>
    intro b bs
    refine ⟨by simp [maxScoreFrom], ?_, ?_⟩
    · intro h
      exact absurd h (by simp [maxScoreFrom])
    · intro h
      rfl
  | cons a t ih =>
    intro b bs
    have hstep : pickStep inp (b, bs) a
        = if scoreAgainst inp a > bs then (a, scoreAgainst inp a) else (b, bs) := rfl
    have hM : maxScoreFrom inp (a :: t) bs
        = maxScoreFrom inp t (max bs (scoreAgainst inp a)) := by
      simp [maxScoreFrom]
    by_cases hgt : scoreAgainst inp a > bs
    · have hmax : max bs (scoreAgainst inp a) = scoreAgainst inp a := by omega
      obtain ⟨ih1, ih2, ih3⟩ := ih a (scoreAgainst inp a)
      rw [List.foldl_cons, hstep, if_pos hgt, hM, hmax]
      refine ⟨ih1, ?_, ?_⟩
      · intro _
        by_cases h2 : scoreAgainst inp a < maxScoreFrom inp t (scoreAgainst inp a)
        · rw [List.find?_cons_of_neg _ (by simp; omega)]
          exact ih2 h2
        · have heq : maxScoreFrom inp t (scoreAgainst inp a) = scoreAgainst inp a := by
            have := le_maxScoreFrom inp t (scoreAgainst inp a)
            omega
          rw [heq, List.find?_cons_of_pos _ (by simp), ih3 (by omega)]
      · intro h
        have := le_maxScoreFrom inp t (scoreAgainst inp a)
        omega
    · have hmax : max bs (scoreAgainst inp a) = bs := by omega
      obtain ⟨ih1, ih2, ih3⟩ := ih b bs
      rw [List.foldl_cons, hstep, if_neg hgt, hM, hmax]
      refine ⟨ih1, ?_, ih3⟩
      intro h
      rw [List.find?_cons_of_neg _ (by simp; omega)]
      exact ih2 h

/-- C7: when createOrder receives no branch id but a delivery address, the
branch assignment picks a branch that scores at least every other branch
under the normalize/position-wise-character-match scoring; a branch with the
strictly highest score is always the one picked, and when every branch
scores zero the first branch is picked. -/
theorem branch_resolution_char (db : DB) (addr : String) (b0 : Branch)
    (rest : List Branch) (hb : db.branches = b0 :: rest) (haddr : addr ≠ "") :
    ∃ chosen : Branch,
      assignBranch db Option.none (Option.some addr)
          = Except.ok (Option.some chosen.id)
      ∧ chosen ∈ db.branches
      ∧ (∀ c ∈ db.branches, branchScore addr c ≤ branchScore addr chosen)
      ∧ (∀ b2 ∈ db.branches,
          (∀ c ∈ db.branches, c ≠ b2 → branchScore addr c < branchScore addr b2) →
          chosen = b2)
      ∧ ((∀ c ∈ db.branches, branchScore addr c = 0) → chosen = b0) := by
  have hassign : assignBranch db Option.none (Option.some addr)
      = Except.ok (Option.some (pickBranch (b0 :: rest) b0 addr).id) := by
    unfold assignBranch
    rw [if_pos ⟨rfl, by simp [truthyStr, haddr]⟩, hb]
    rfl
  have hpb : pickBranch (b0 :: rest) b0 addr
      = ((b0 :: rest).foldl (pickStep (normalize addr)) (b0, 0)).1 := rfl
  obtain ⟨hsc, hfind, hbase⟩ := pickFold_char (normalize addr) (b0 :: rest) b0 0
  refine ⟨pickBranch (b0 :: rest) b0 addr, hassign, ?_, ?_, ?_, ?_⟩
  · rw [hb, hpb]
    by_cases h0 : 0 < maxScoreFrom (normalize addr) (b0 :: rest) 0
    · exact List.mem_of_find?_eq_some (hfind h0)
    · rw [hbase h0]
      exact List.mem_cons_self b0 rest
  · intro c hc
    rw [hb] at hc
    by_cases h0 : 0 < maxScoreFrom (normalize addr) (b0 :: rest) 0
    · have hceq : scoreAgainst (normalize addr) (pickBranch (b0 :: rest) b0 addr)
          = maxScoreFrom (normalize addr) (b0 :: rest) 0 := by
        have := List.find?_some (hfind h0)
        rw [hpb]
        simpa using this
      show scoreAgainst (normalize addr) c
          ≤ scoreAgainst (normalize addr) (pickBranch (b0 :: rest) b0 addr)
      rw [hceq]
      exact el_le_maxScoreFrom (normalize addr) (b0 :: rest) 0 c hc
    · have hle := el_le_maxScoreFrom (normalize addr) (b0 :: rest) 0 c hc
      show scoreAgainst (normalize addr) c
          ≤ scoreAgainst (normalize addr) (pickBranch (b0 :: rest) b0 addr)
      omega
  · intro b2 hb2 hdom
    rw [hb] at hb2
    by_cases h0 : 0 < maxScoreFrom (normalize addr) (b0 :: rest) 0
    · have hmem : pickBranch (b0 :: rest) b0 addr ∈ b0 :: rest := by
        rw [hpb]
        exact List.mem_of_find?_eq_some (hfind h0)
      have hceq : scoreAgainst (normalize addr) (pickBranch (b0 :: rest) b0 addr)
          = maxScoreFrom (normalize addr) (b0 :: rest) 0 := by
        have := List.find?_some (hfind h0)
        rw [hpb]
        simpa using this
      by_cases hch : pickBranch (b0 :: rest) b0 addr = b2
      · exact hch
      · exfalso
        have hlt := hdom (pickBranch (b0 :: rest) b0 addr) (by rw [hb]; exact hmem) hch
        have hle := el_le_maxScoreFrom (normalize addr) (b0 :: rest) 0 b2 hb2
        have : branchScore addr (pickBranch (b0 :: rest) b0 addr)
            = maxScoreFrom (normalize addr) (b0 :: rest) 0 := hceq
        have : branchScore addr b2 ≤ maxScoreFrom (normalize addr) (b0 :: rest) 0 := hle
        omega
    · have hch : pickBranch (b0 :: rest) b0 addr = b0 := by
        rw [hpb]
        exact hbase h0
      by_cases hb0 : b0 = b2
      · rw [hch, hb0]
      · exfalso
        have hlt := hdom b0 (by rw [hb]; exact List.mem_cons_self b0 rest) hb0
        have hle : branchScore addr b2 ≤ maxScoreFrom (normalize addr) (b0 :: rest) 0 :=
          el_le_maxScoreFrom (normalize addr) (b0 :: rest) 0 b2 hb2
        omega
  · intro hz
    have hM0 : maxScoreFrom (normalize addr) (b0 :: rest) 0 = 0 := by
      rcases maxScoreFrom_cases (normalize addr) (b0 :: rest) 0 with h | ⟨c, hc, h⟩
      · exact h
      · rw [h]
        exact hz c (by rw [hb]; exact hc)
    rw [hpb]
    exact hbase (by omega)

/-- Witness for C7 at a concrete input: scenario D of the spec.  Address 42
Elm Street against branches at 42 Elm St and 99 Oak Ave resolves to the
first branch (score 7 against 0). -/
theorem branch_resolution_char_witness :
    assignBranch c7db Option.none (Option.some "42 Elm Street")
      = Except.ok (Option.some 1) := by
  obtain ⟨chosen, h1, _, _, h4, _⟩ :=
    branch_resolution_char c7db "42 Elm Street" c7elm [c7oak] rfl (by decide)
  have hch : chosen = c7elm := by
    apply h4 c7elm (by simp [c7db])
    intro c hc hne
    rcases (by simpa [c7db] using hc : c = c7elm ∨ c = c7oak) with h | h
    · exact absurd h hne
    · subst h
      decide
  rw [hch] at h1
  exact h1

/-- Witness for C5 at a concrete input: scenario A of the spec.  Customer 7
orders two units of available item 3 priced 10.00 with a customerId of 99 in
the request; the resulting order is PENDING, totals 20.00, and belongs to
customer 7. -/
theorem createOrder_pending_total_witness :
    c5order.status = OrderStatus.PENDING
    ∧ c5order.totalAmount
        = ((c5order.items.map (fun it => it.unitPrice * (it.quantity : Rat))).sum)
    ∧ (∀ it ∈ c5order.items, ∃ mi : MenuItem,
        c5db.findMenuItem it.menuItemId = Option.some mi ∧ it.unitPrice = mi.price
          ∧ it.subtotal = it.unitPrice * (it.quantity : Rat))
    ∧ (c5user.role = Role.CUSTOMER → c5order.customerId = c5user.id) :=
  createOrder_pending_total c5user c5req c5db c5order c5dbOut (by
    norm_num [createOrderRoute, createOrder, assignBranch, processItemsAux,
      DB.findMenuItem, DB.nextOrderId, resolveCustomerId, truthyNat, truthyStr,
      c5user, c5req, c5db, c5item, c5order, c5dbOut])

/-- The item pricing loop fails with an error exactly when the request list
has a failing item, and the error is the one of the first failing item. -/
theorem processItemsAux_error (db : DB) (reqs : List OrderItemReq) :
    ∀ (acc : List OrderItem) (total : Rat) (e : ApiError),
    (processItemsAux db reqs acc total = Except.error e
      ↔ firstItemError db reqs = Option.some e) := by
  induction reqs with
  | nil =>
    intro acc total e
    simp [processItemsAux, firstItemError]
  | cons r rest ih =>
    intro acc total e
    simp only [processItemsAux, firstItemError]
    cases hmi : db.findMenuItem r.menuItemId with
    | none => simp
    | some mi =>
      by_cases hav : mi.isAvailable = false
      · simp [hav]
      · simp only [if_neg hav]
        exact ih _ _ e

/-- C8 counterexample: with an unavailable item listed before a missing one,
createOrder fails with the item-unavailable error of the first item, not
with an item-not-found error, although a requested menu item (id 2) is
missing from the catalog. -/
theorem missing_item_error_masked :
    c8db.findMenuItem 2 = Option.none
    ∧ (createOrderRoute c8user c8req c8db).1
        = Except.error (ApiError.itemUnavailable "Burger")
    ∧ (ApiError.itemUnavailable "Burger").isItemNotFoundErr = false := by
  refine ⟨rfl, rfl, rfl⟩

/-- C8 amended: items are validated sequentially in request order and the
first failing item determines the error (item-not-found when that item is
missing, item-unavailable when it is present with isAvailable = false); any
such failure aborts createOrder with exactly that error and leaves the
store unchanged, so no order or order item is persisted. -/
theorem item_failure_aborts (user : User) (req : CreateOrderReq) (db : DB)
    (e : ApiError) (bid : Option Nat)
    (hrole : user.role ∈ [Role.CUSTOMER, Role.CASHIER])
    (hne : req.items ≠ [])
    (hab : assignBranch db req.branchId req.deliveryAddress = Except.ok bid)
    (hbid : truthyNat bid = true)
    (hfe : firstItemError db req.items = Option.some e) :
    createOrderRoute user req db = (Except.error e, db) := by
  have hbig : ¬ user.role ∉ [Role.CUSTOMER, Role.CASHIER, Role.BRANCH_MANAGER,
      Role.ADMIN, Role.GENERAL_MANAGER] := by
    rcases List.mem_cons.mp hrole with h | h
    · simp [h]
    · simp at h
      simp [h]
  have hpi : processItemsAux db req.items [] 0 = Except.error e :=
    (processItemsAux_error db req.items [] 0 e).mpr hfe
  unfold createOrderRoute
  rw [if_pos hrole]
  unfold createOrder
  rw [if_neg hbig, if_neg hne, hab]
  simp [hbid, hpi]

/-- Witness for the amended C8 at a concrete input: a request whose first
item is missing from the catalog fails with item-not-found for that item
and the store is unchanged. -/
theorem item_failure_aborts_witness :
    createOrderRoute c8user c8reqW c8db
      = (Except.error (ApiError.itemNotFound 2), c8db) :=
  item_failure_aborts c8user c8reqW c8db (ApiError.itemNotFound 2) (Option.some 1)
    (by decide) (by decide) rfl rfl rfl

/-- A payment-status write does not touch the orders table. -/
theorem orders_setPaymentStatus (db : DB) (i : Nat) (st : PaymentStatus) :
    (db.setPaymentStatus i st).orders = db.orders := rfl

/-- When every order row with the deleted id is filtered out, the order
lookup finds nothing. -/
theorem find?_filter_ne (l : List Order) (orderId : Nat) :
    (l.filter (fun r => r.id != orderId)).find? (fun r => r.id == orderId)
      = Option.none := by
  rw [List.find?_eq_none]
  intro x hx
  have := List.of_mem_filter hx
  simpa using this

/-- C9: deleteOrder accepts only ADMIN and BRANCH_MANAGER; a DELIVERED order
is rejected with the cannot-delete error and the store is unchanged (order
and payment untouched); in every other status the deletion succeeds, the
order row disappears, and an existing payment row is first marked
REFUNDED (and survives the deletion with that status). -/
theorem deleteOrder_rules (user : User) (orderId : Nat) (db : DB) (o : Order)
    (ho : db.findOrder orderId = Option.some o) :
    (user.role ∉ [Role.ADMIN, Role.BRANCH_MANAGER] →
      deleteOrderRoute user orderId db = (Except.error ApiError.accessDeniedRole, db))
    ∧ (user.role ∈ [Role.ADMIN, Role.BRANCH_MANAGER] →
        o.status = OrderStatus.DELIVERED →
      deleteOrderRoute user orderId db
        = (Except.error ApiError.cannotDeleteDelivered, db))
    ∧ (user.role ∈ [Role.ADMIN, Role.BRANCH_MANAGER] →
        o.status ≠ OrderStatus.DELIVERED →
      (deleteOrderRoute user orderId db).1 = Except.ok ()
      ∧ (deleteOrderRoute user orderId db).2.findOrder orderId = Option.none
      ∧ (∀ p : Payment, db.paymentFor orderId = Option.some p →
          (deleteOrderRoute user orderId db).2.paymentFor orderId
            = Option.some { p with status := PaymentStatus.REFUNDED })) := by
  have hid : o.id = orderId := by
    have := List.find?_some ho
    simpa using this
  refine ⟨?_, ?_, ?_⟩
  · intro h
    unfold deleteOrderRoute
    rw [if_neg h]
  · intro hmem hst
    have hnn : ¬ user.role ∉ [Role.ADMIN, Role.BRANCH_MANAGER] := not_not.mpr hmem
    unfold deleteOrderRoute deleteOrder
    rw [if_pos hmem, if_neg hnn, ho]
    simp [hst]
  · intro hmem hst
    have hnn : ¬ user.role ∉ [Role.ADMIN, Role.BRANCH_MANAGER] := not_not.mpr hmem
    cases hpay : db.paymentFor o.id with
    | none =>
      have hred : deleteOrderRoute user orderId db
          = (Except.ok (),
             { db with orders := db.orders.filter (fun r => r.id != orderId) }) := by
        unfold deleteOrderRoute deleteOrder
        rw [if_pos hmem, if_neg hnn, ho]
        simp [hst, hpay]
      refine ⟨by rw [hred], ?_, ?_⟩
      · rw [hred]
        exact find?_filter_ne db.orders orderId
      · intro p hp
        rw [hid] at hpay
        rw [hp] at hpay
        exact absurd hpay (by simp)
    | some p0 =>
      have hred : deleteOrderRoute user orderId db
          = (Except.ok (),
             { db.setPaymentStatus p0.id PaymentStatus.REFUNDED with
                 orders := db.orders.filter (fun r => r.id != orderId) }) := by
        unfold deleteOrderRoute deleteOrder
        rw [if_pos hmem, if_neg hnn, ho]
        simp [hst, hpay, orders_setPaymentStatus]
      rw [hid] at hpay
      refine ⟨by rw [hred], ?_, ?_⟩
      · rw [hred]
        exact find?_filter_ne db.orders orderId
      · intro p hp
        have hpp : p0 = p := by
          rw [hp] at hpay
          exact (Option.some.inj hpay).symm
        subst hpp
        rw [hred]
        show (db.setPaymentStatus p0.id PaymentStatus.REFUNDED).paymentFor orderId
          = Option.some { p0 with status := PaymentStatus.REFUNDED }
        exact paymentFor_setPaymentStatus_self db orderId p0 PaymentStatus.REFUNDED hp

/-- Witness for C9 at a concrete input: the admin deletes the PENDING order
with a payment, and a chef is denied. -/
theorem deleteOrder_rules_witness :
    (c9admin.role ∉ [Role.ADMIN, Role.BRANCH_MANAGER] →
      deleteOrderRoute c9admin 1 c9db = (Except.error ApiError.accessDeniedRole, c9db))
    ∧ (c9admin.role ∈ [Role.ADMIN, Role.BRANCH_MANAGER] →
        c9order.status = OrderStatus.DELIVERED →
      deleteOrderRoute c9admin 1 c9db
        = (Except.error ApiError.cannotDeleteDelivered, c9db))
    ∧ (c9admin.role ∈ [Role.ADMIN, Role.BRANCH_MANAGER] →
        c9order.status ≠ OrderStatus.DELIVERED →
      (deleteOrderRoute c9admin 1 c9db).1 = Except.ok ()
      ∧ (deleteOrderRoute c9admin 1 c9db).2.findOrder 1 = Option.none
      ∧ (∀ p : Payment, c9db.paymentFor 1 = Option.some p →
          (deleteOrderRoute c9admin 1 c9db).2.paymentFor 1
            = Option.some { p with status := PaymentStatus.REFUNDED })) :=
  deleteOrder_rules c9admin 1 c9db c9order rfl

/-- C10: for a CHEF or CASHIER whose branchId is not set or is the falsy id
0, getOrders applies no branch filter at all (and no customer filter): the
where-clause keeps branchId and customerId empty, and the result is the
whole order table filtered only by the optional status query, so orders of
every branch are returned rather than an error or an empty set. -/
theorem getOrders_no_branch_filter (user : User) (q : OrdersQuery) (db : DB)
    (hrole : user.role = Role.CHEF ∨ user.role = Role.CASHIER)
    (hbr : truthyNat user.branchId = false) :
    (buildWhereClause user q).branchId = Option.none
    ∧ (buildWhereClause user q).customerId = Option.none
    ∧ getOrders user q db = db.orders.filter (fun o =>
        match q.status with
        | Option.none => true
        | Option.some s => o.status == s) := by
  have hw : buildWhereClause user q
      = { branchId := Option.none, customerId := Option.none, status := q.status } := by
    rcases hrole with h | h <;> cases hq : q.status <;>
      simp [buildWhereClause, h, hbr, hq]
  refine ⟨by rw [hw], by rw [hw], ?_⟩
  cases hq : q.status with
  | none => simp [getOrders, hw, matchesWhere, hq]
  | some s =>
    simp only [getOrders, hw, hq]
    apply List.filter_congr
    intro x hx
    simp [matchesWhere]

/-- Witness for C10 at a concrete input: a chef with no branch set lists
orders and receives the orders of both branches. -/
theorem getOrders_no_branch_filter_witness :
    (buildWhereClause c10chef c10q).branchId = Option.none
    ∧ (buildWhereClause c10chef c10q).customerId = Option.none
    ∧ getOrders c10chef c10q c10db = c10db.orders.filter (fun o =>
        match c10q.status with
        | Option.none => true
        | Option.some s => o.status == s) :=
  getOrders_no_branch_filter c10chef c10q c10db (Or.inl rfl) rfl

end Steakz
